import Mathlib

/-!
Verification of the SearchBot hybrid constraint search engine and its
conversation context resolver, shallowly embedded from the Python source
(product_search.py, memory.py, chatbot.py).

Conventions of the embedding:
- Python floats (prices, distances, the contrast weight alpha) are modelled
  as elements of a linear ordered field (instantiated at the rationals for
  executable witnesses, at the reals where the L2 norm is involved).
- Python `str.lower()` and the substring operator `in` act per character;
  they are modelled on the underlying character lists.
- Python truthiness on optional values is modelled explicitly: a missing
  key or None is falsy, an empty list or empty string is falsy, the number
  zero is falsy.
- `list(set(xs))` returns the distinct elements in an unspecified order;
  it is modelled deterministically as `List.eraseDups` (first occurrences
  kept).  All properties proved below treat these lists as sets.
- Wall-clock timestamps stored in the message log are omitted.
- The external collaborators (embedding provider, vector store, NLU
  extractor) are parameters of the corresponding functions.
-/

namespace SearchBot

/-! ## String primitives (Python lower / substring) -/

/-- Does the needle occur at the head of the haystack (character lists)? -/
def matchAt : List Char → List Char → Bool
  | [], _ => true
  | _ :: _, [] => false
  | a :: as, b :: bs => a == b && matchAt as bs

/-- Does the needle occur anywhere inside the haystack (character lists)? -/
def hasSub (needle : List Char) : List Char → Bool
  | [] => needle.isEmpty
  | c :: t => matchAt needle (c :: t) || hasSub needle t

/-- Python str.lower(), as the lower-cased character list of a string. -/
def pyLower (s : String) : List Char := s.data.map Char.toLower

/-- Python `needle in haystack` after lower-casing both sides, which is the
only way substring tests occur in the source. -/
def pyIn (needle haystack : String) : Bool := hasSub (pyLower needle) (pyLower haystack)

/-! ## Python truthiness on optional values -/

/-- Truthiness of an optional list: None and the empty list are falsy. -/
def optListTruthy {α : Type} (o : Option (List α)) : Bool :=
  match o with
  | none => false
  | some l => !l.isEmpty

/-- Truthiness of an optional string: None and the empty string are falsy. -/
def optStrTruthy (o : Option String) : Bool :=
  match o with
  | none => false
  | some s => !s.data.isEmpty

/-- Truthiness of an optional number: None and zero are falsy. -/
def optNumTruthy (o : Option ℚ) : Bool :=
  match o with
  | none => false
  | some x => x != 0

/-- The list a Python `for` loop iterates over when guarded by a truthiness
check: the underlying list when truthy, nothing otherwise. -/
def truthyList {α : Type} (o : Option (List α)) : List α :=
  if optListTruthy o then o.getD [] else []

/-- Python list(set(xs)), modelled as the duplicate-free list of first
occurrences (the source only uses the result as a set). -/
def pySetList (xs : List String) : List String := xs.eraseDups

/-! ## Data model: candidates and formatted results (product_search.py) -/

/-- A retrieval hit returned by the vector store: identifier, raw distance,
and the metadata snapshot written by load_products. -/
structure Candidate (K : Type) where
  id : String
  distance : K
  name : String
  brand : String
  price : K
  target_pet : String
  ingredients : String
  dietary_tags : String
  document : String
deriving DecidableEq

/-- A formatted search result as assembled at product_search.py:301-311,
with similarity derived from distance. -/
structure FormattedResult (K : Type) where
  id : String
  name : String
  similarity : K
  brand : String
  price : K
  target_pet : String
  ingredients : String
  dietary_tags : String
  description : String
deriving DecidableEq

variable {K : Type} [LinearOrderedField K]

/-- The formatted-result record built from a candidate, similarity = 1 - distance
(product_search.py:297-311). -/
def mkResult (c : Candidate K) : FormattedResult K :=
  { id := c.id
    name := c.name
    similarity := 1 - c.distance
    brand := c.brand
    price := c.price
    target_pet := c.target_pet
    ingredients := c.ingredients
    dietary_tags := c.dietary_tags
    description := c.document }

/-! ## Post-filter (product_search.py:277-295) -/

/-- The fixed grain-synonym list of the requirement post-filter
(product_search.py:289). -/
def grainTypes : List String := ["rice", "barley", "wheat", "oat", "corn", "grain"]

/-- Exclusion post-filter (product_search.py:278-282): with a truthy exclusion
list, reject the candidate when any exclusion term occurs (case-insensitively)
in its ingredient text. -/
def exclusionOK (excl : Option (List String)) (ing : String) : Bool :=
  if optListTruthy excl then !((excl.getD []).any fun t => pyIn t ing) else true

/-- Requirement post-filter (product_search.py:284-295): with a truthy
requirement list, if "grain" is among the lower-cased terms the candidate must
contain one of the grain synonyms; otherwise every term must occur literally. -/
def requirementOK (req : Option (List String)) (ing : String) : Bool :=
  if optListTruthy req then
    if "grain".data ∈ (req.getD []).map pyLower then
      grainTypes.any fun g => pyIn g ing
    else
      (req.getD []).all fun t => pyIn t ing
  else true

/-- A candidate survives the post-filter when both checks pass
(the two `continue` statements of product_search.py:282,291,295). -/
def keepCandidate (excl req : Option (List String)) (ing : String) : Bool :=
  exclusionOK excl ing && requirementOK req ing

/-- The formatting loop of product_search.py:274-315: scan candidates in
arrival order, keep survivors, stop once max_results have been accepted.
(The source breaks after appending when the accepted count reaches
max_results, so the bound 0 behaves like the bound 1.) -/
def formatLoop (excl req : Option (List String)) : ℕ → List (Candidate K) → List (FormattedResult K)
  | _, [] => []
  | m, c :: rest =>
    if keepCandidate excl req c.ingredients then
      if m ≤ 1 then [mkResult c]
      else mkResult c :: formatLoop excl req (m - 1) rest
    else formatLoop excl req m rest

/-- The result-formatting stage of search (product_search.py:268-317). -/
def postProcessResults (excl req : Option (List String)) (m : ℕ)
    (cands : List (Candidate K)) : List (FormattedResult K) :=
  formatLoop excl req m cands

/-! ## Filter builder (product_search.py:222-244) -/

/-- A single metadata equality condition of the where-filter. -/
inductive MetaCond where
  | eqStr (field value : String)
  | eqBool (field : String) (value : Bool)
deriving DecidableEq

/-- The where-filter passed to the vector store: absent, a single condition
verbatim, or the conjunction of several conditions. -/
inductive WhereFilter where
  | noFilter
  | single (c : MetaCond)
  | andAll (cs : List MetaCond)
deriving DecidableEq

/-- The index-level condition contributed by one exclusion term
(product_search.py:230-236): only salmon, chicken and grain/grains are
recognized; any other term contributes nothing. -/
def exclusionCondition (t : String) : Option MetaCond :=
  if pyLower t = "salmon".data then some (MetaCond.eqBool "has_salmon" false)
  else if pyLower t = "chicken".data then some (MetaCond.eqBool "has_chicken" false)
  else if pyLower t = "grain".data ∨ pyLower t = "grains".data then
    some (MetaCond.eqBool "has_grain" false)
  else none

/-- The condition list built by search (product_search.py:224-236): an
equality on target_pet when truthy, then the recognized exclusion flags. -/
def buildConditions (pet : Option String) (excl : Option (List String)) : List MetaCond :=
  (if optStrTruthy pet then [MetaCond.eqStr "target_pet" (pet.getD "")] else [])
    ++ (if optListTruthy excl then (excl.getD []).filterMap exclusionCondition else [])

/-- Assembly of the final filter (product_search.py:238-244): zero conditions
give no filter, one condition is used verbatim, several are wrapped in an AND. -/
def buildWhereFilter (cs : List MetaCond) : WhereFilter :=
  match cs with
  | [] => WhereFilter.noFilter
  | [c] => WhereFilter.single c
  | cs => WhereFilter.andAll cs

/-! ## Contrastive query composer (product_search.py:119-189) -/

variable {n : ℕ}

/-- Sum of squares of a vector; np.linalg.norm is its square root. -/
def normSq (v : Fin n → K) : K := ∑ i, v i * v i

/-- The expanded text embedded for a requirement term
(product_search.py:170-173): a generic "grain" requirement becomes a
canonical phrase of common grain ingredients, any other term is unchanged. -/
def boost_text (requirement : String) : String :=
  if pyLower requirement = "grain".data then "whole grain rice barley oats wheat"
  else requirement

/-- create_contrastive_embedding (product_search.py:119-189): embed the base
query, subtract alpha times each exclusion embedding, add alpha times each
(expanded) requirement embedding, then L2-normalize when the norm is positive.
The square-root function of the ambient field is a parameter so that the
definition stays executable; the theorems instantiate it with Real.sqrt. -/
def create_contrastive_embedding (sqrtFn : K → K) (embed : String → Fin n → K)
    (query : String) (exclusions requirements : Option (List String))
    (alpha : K) : Fin n → K :=
  let base := embed query
  let base := (truthyList exclusions).foldl
    (fun acc t => fun i => acc i - alpha * embed t i) base
  let base := (truthyList requirements).foldl
    (fun acc t => fun i => acc i + alpha * embed (boost_text t) i) base
  let norm := sqrtFn (normSq base)
  if 0 < norm then (fun i => base i / norm) else base

/-- The default contrast weight alpha (product_search.py:124). -/
def defaultAlpha : K := 7 / 10

/-! ## Retrieval (product_search.py:246-266) -/

/-- The query argument of the one k-NN call: either the composed vector or
the raw query text. -/
inductive RetrievalQuery (K : Type) (n : ℕ) where
  | byVector (v : Fin n → K)
  | byText (q : String)

/-- Choice of retrieval query (product_search.py:248-266): the contrastive
vector exactly when the exclusion or the requirement list is truthy, the raw
text otherwise. -/
def retrievalQueryFor (sqrtFn : K → K) (embed : String → Fin n → K)
    (query : String) (excl req : Option (List String)) : RetrievalQuery K n :=
  if optListTruthy excl || optListTruthy req then
    RetrievalQuery.byVector (create_contrastive_embedding sqrtFn embed query excl req defaultAlpha)
  else
    RetrievalQuery.byText query

/-- ProductSearch.search (product_search.py:191-317).  The vector store is a
parameter that may fail; on success it returns the raw candidate list, which
is then post-filtered and truncated.  The store is asked for 3 * max_results
candidates (product_search.py:258,265). -/
def search {ε : Type} (sqrtFn : K → K) (embed : String → Fin n → K)
    (store : RetrievalQuery K n → WhereFilter → ℕ → Except ε (List (Candidate K)))
    (query : String) (excl req : Option (List String)) (pet : Option String)
    (m : ℕ) : Except ε (List (FormattedResult K)) :=
  match store (retrievalQueryFor sqrtFn embed query excl req)
      (buildWhereFilter (buildConditions pet excl)) (m * 3) with
  | Except.error e => Except.error e
  | Except.ok cands => Except.ok (postProcessResults excl req m cands)

/-! ## Intent records (nlu.py schema, consumed by memory.py and chatbot.py) -/

/-- A partially-filled intent record: every field of the NLU function schema
is optional, a missing dictionary key is None. -/
structure Intent where
  query : Option String
  target_pet : Option String
  dietary_exclusions : Option (List String)
  dietary_requirements : Option (List String)
  price_min : Option ℚ
  price_max : Option ℚ
  life_stage : Option String
  size_category : Option String
  brand : Option String
  exclude_brands : Option (List String)
deriving DecidableEq

/-- The all-absent intent record. -/
def emptyIntent : Intent :=
  ⟨none, none, none, none, none, none, none, none, none, none⟩

/-! ## Conversation memory (memory.py:15-142) -/

/-- The price window stored in context (memory.py:57-61). -/
structure PriceRange where
  max : ℚ
  min : ℚ
deriving DecidableEq

/-- The per-session context dictionary (memory.py:30-35). -/
structure SessionContext where
  current_pet : Option String
  current_exclusions : List String
  price_range : Option PriceRange
  last_brands_shown : List String
deriving DecidableEq

/-- One entry of the message log (timestamps omitted). -/
structure ChatMessage where
  role : String
  content : String
  intent : Option Intent
deriving DecidableEq

/-- ConversationMemory (memory.py:25-35). -/
structure ConversationMemory where
  max_history : ℕ
  messages : List ChatMessage
  last_query : Option Intent
  last_results : List (FormattedResult ℚ)
  context : SessionContext
deriving DecidableEq

/-- A fresh session (memory.py:25-35, default max_history 10). -/
def initMemory (max_history : ℕ) : ConversationMemory :=
  { max_history := max_history
    messages := []
    last_query := none
    last_results := []
    context := { current_pet := none, current_exclusions := [], price_range := none,
                 last_brands_shown := [] } }

/-- The exclusion-accumulation loop of memory.py:52-55: append each new term
not already present. -/
def accumulateExclusions (existing newTerms : List String) : List String :=
  newTerms.foldl (fun acc excl => if acc.contains excl then acc else acc ++ [excl]) existing

/-- ConversationMemory.add_user_message (memory.py:37-67): append the user
message, update context from a truthy intent (species, accumulated
exclusions, price window, last_query), then trim the log to max_history. -/
def add_user_message (mem : ConversationMemory) (message : String)
    (intent : Option Intent) : ConversationMemory :=
  let mem₁ := { mem with messages := mem.messages ++ [⟨"user", message, intent⟩] }
  let mem₂ : ConversationMemory :=
    match intent with
    | none => mem₁
    | some it =>
      let ctx := mem₁.context
      let ctx := if optStrTruthy it.target_pet then { ctx with current_pet := it.target_pet }
                 else ctx
      let ctx := if optListTruthy it.dietary_exclusions then
          { ctx with current_exclusions :=
              accumulateExclusions ctx.current_exclusions (it.dietary_exclusions.getD []) }
        else ctx
      let ctx := if optNumTruthy it.price_max then
          { ctx with price_range := some ⟨it.price_max.getD 0, it.price_min.getD 0⟩ }
        else ctx
      { mem₁ with context := ctx, last_query := some it }
  if mem₂.max_history < mem₂.messages.length then
    { mem₂ with messages := mem₂.messages.drop (mem₂.messages.length - mem₂.max_history) }
  else mem₂

/-- ConversationMemory.add_bot_message (memory.py:69-82): append the
assistant message; only with a truthy (non-empty) result list, store it as
last_results and replace last_brands_shown by the distinct truthy brands. -/
def add_bot_message (mem : ConversationMemory) (message : String)
    (results : List (FormattedResult ℚ)) : ConversationMemory :=
  let mem₁ := { mem with messages := mem.messages ++ [⟨"assistant", message, none⟩] }
  if results.isEmpty then mem₁
  else
    { mem₁ with
      last_results := results
      context := { mem₁.context with
        last_brands_shown :=
          pySetList (results.filterMap fun r => if !r.brand.data.isEmpty then some r.brand else none) } }

/-- Mean price of a result list (memory.py:101,107). -/
def avgPrice (rs : List (FormattedResult ℚ)) : ℚ := (rs.map (fun r => r.price)).sum / rs.length

/-- Comparative-price transition (memory.py:97-109): a "cheaper"/"less
expensive" cue with a previous result set overwrites price_max with 0.8 times
the mean price; otherwise a "more expensive"/"premium" cue overwrites
price_min with 1.2 times the mean (note the elif: the first cue shadows the
second). -/
def step_comparative_price (mem : ConversationMemory) (query : String) (r : Intent) : Intent :=
  if pyIn "cheaper" query || pyIn "less expensive" query then
    if !mem.last_results.isEmpty then
      { r with price_max := some (avgPrice mem.last_results * (8 / 10)) }
    else r
  else if pyIn "more expensive" query || pyIn "premium" query then
    if !mem.last_results.isEmpty then
      { r with price_min := some (avgPrice mem.last_results * (12 / 10)) }
    else r
  else r

/-- Species inheritance (memory.py:112-114). -/
def step_inherit_pet (mem : ConversationMemory) (r : Intent) : Intent :=
  if !optStrTruthy r.target_pet && optStrTruthy mem.context.current_pet then
    { r with target_pet := mem.context.current_pet }
  else r

/-- Cue-gated exclusion accumulation (memory.py:117-122): with an additive
cue in the query, the intent's exclusion list becomes the distinct union of
the context's accumulated exclusions and its own. -/
def step_accumulate (mem : ConversationMemory) (query : String) (r : Intent) : Intent :=
  if ["also", "too", "additionally", "and"].any (fun w => pyIn w query) then
    let joined := pySetList (mem.context.current_exclusions ++ r.dietary_exclusions.getD [])
    { r with dietary_exclusions := some joined }
  else r

/-- Brand differentiation (memory.py:125-127). -/
def step_brand_diff (mem : ConversationMemory) (query : String) (r : Intent) : Intent :=
  if pyIn "different" query && pyIn "brand" query then
    { r with exclude_brands := some mem.context.last_brands_shown }
  else r

/-- ConversationMemory.resolve_reference_query (memory.py:84-129): comparative
price resolution, species inheritance, cue-gated exclusion accumulation and
brand differentiation, applied in that order to a copy of the intent.  The
lower-cased query is probed with lower-case needles, so pyIn coincides with
the source's substring tests. -/
def resolve_reference_query (mem : ConversationMemory) (query : String)
    (intent : Intent) : Intent :=
  step_brand_diff mem query
    (step_accumulate mem query
      (step_inherit_pet mem
        (step_comparative_price mem query intent)))

/-! ## Chat turn (chatbot.py:49-103) -/

/-- The argument tuple chatbot.py:81-87 passes to ProductSearch.search;
note there is no price field. -/
structure SearchArgs where
  query : String
  dietary_exclusions : Option (List String)
  dietary_requirements : Option (List String)
  target_pet : Option String
  max_results : ℕ
deriving DecidableEq

/-- The search arguments extracted from a resolved intent
(chatbot.py:81-87): query falls back to the raw user message, and
max_results is fixed at 5. -/
def searchCallArgs (resolved : Intent) (user_message : String) : SearchArgs :=
  { query := resolved.query.getD user_message
    dietary_exclusions := resolved.dietary_exclusions
    dietary_requirements := resolved.dietary_requirements
    target_pet := resolved.target_pet
    max_results := 5 }

/-- ProductSearch.search invoked on a SearchArgs tuple: the engine receives
exactly these five fields and nothing else. -/
def runSearchEngine {ε : Type} (sqrtFn : K → K) (embed : String → Fin n → K)
    (store : RetrievalQuery K n → WhereFilter → ℕ → Except ε (List (Candidate K)))
    (a : SearchArgs) : Except ε (List (FormattedResult K)) :=
  search sqrtFn embed store a.query a.dietary_exclusions a.dietary_requirements
    a.target_pet a.max_results

/-- Step 3 of PetProductChatbot.chat (chatbot.py:73-78): union the resolved
intent's exclusions with the saved customer exclusions, writing the merged
list back only when it differs from the existing one. -/
def mergeSavedExclusions (saved_exclusions : List String) (resolved₁ : Intent) : Intent :=
  let existing := resolved₁.dietary_exclusions.getD []
  let merged := pySetList (existing ++ saved_exclusions)
  if merged = existing then resolved₁
  else { resolved₁ with dietary_exclusions := some merged }

/-- PetProductChatbot.chat (chatbot.py:49-103): extract the raw intent,
resolve references against the session, merge saved customer exclusions,
search, and only on search success record the user and assistant messages.
The NLU extractor and the (fallible) search engine are parameters; the
long-term profile write of step 6 touches no session state and is omitted. -/
def chat {ε : Type} (searchFn : SearchArgs → Except ε (List (FormattedResult ℚ)))
    (nlu : String → Intent) (saved_exclusions : List String)
    (mem : ConversationMemory) (user_message : String) :
    Except ε (Intent × List (FormattedResult ℚ)) × ConversationMemory :=
  let resolved := mergeSavedExclusions saved_exclusions
    (resolve_reference_query mem user_message (nlu user_message))
  match searchFn (searchCallArgs resolved user_message) with
  | Except.error e => (Except.error e, mem)
  | Except.ok results =>
    let mem₁ := add_user_message mem user_message (some resolved)
    let mem₂ := add_bot_message mem₁
      ("Found " ++ toString results.length ++ " products") results
    (Except.ok (resolved, results), mem₂)

/-! ## Concrete fixtures used by witnesses and counterexamples -/

/-- A product whose ingredient text contains salmon. -/
def cSalmon : Candidate ℚ :=
  ⟨"p1", 1 / 10, "SalmonBites", "BrandS", 30, "dog", "Salmon,Sweet Potato", "fish",
    "SalmonBites. desc"⟩

/-- A product whose ingredient text contains beef and rice. -/
def cBeef : Candidate ℚ :=
  ⟨"p2", 2 / 10, "BeefBites", "BrandB", 20, "dog", "Beef,Rice", "", "BeefBites. desc"⟩

/-- A constant embedding provider over the rationals (one dimension). -/
def embed0 : String → Fin 1 → ℚ := fun _ _ => 0

/-- A vector store that always returns the two sample candidates. -/
def store0 : RetrievalQuery ℚ 1 → WhereFilter → ℕ → Except Unit (List (Candidate ℚ)) :=
  fun _ _ _ => Except.ok [cSalmon, cBeef]

/-- A sample formatted result priced at 40 from BrandA. -/
def r40 : FormattedResult ℚ := ⟨"p", "n", 1, "BrandA", 40, "dog", "Beef", "", "d"⟩

/-- A session that has already shown the 40-dollar BrandA result, accumulated
the exclusion salmon and settled on dogs. -/
def memW : ConversationMemory :=
  { initMemory 10 with
    last_results := [r40]
    context := { current_pet := some "dog", current_exclusions := ["salmon"],
                 price_range := none, last_brands_shown := ["BrandA"] } }

/-- An NLU stub returning the empty intent. -/
def nlu0 : String → Intent := fun _ => emptyIntent

/-- A search engine stub that always fails. -/
def sFnErr : SearchArgs → Except Unit (List (FormattedResult ℚ)) := fun _ => Except.error ()

/-- A search engine stub that always returns zero results. -/
def sFnEmpty : SearchArgs → Except Unit (List (FormattedResult ℚ)) := fun _ => Except.ok []

/-! ## Helper lemmas about the post-filter -/

/-- Every element of the formatting loop's output is a surviving candidate. -/
theorem mem_formatLoop {K : Type} [LinearOrderedField K] {excl req : Option (List String)} :
    ∀ {m : ℕ} {cands : List (Candidate K)} {r : FormattedResult K},
      r ∈ formatLoop excl req m cands →
      ∃ c, c ∈ cands ∧ r = mkResult c ∧ keepCandidate excl req c.ingredients = true := by
  intro m cands
  induction cands generalizing m with
  | nil => intro r h; simp [formatLoop] at h
  | cons c rest ih =>
    intro r h
    by_cases hk : keepCandidate excl req c.ingredients = true
    · by_cases hm : m ≤ 1
      · simp only [formatLoop, hk, if_true, hm] at h
        simp at h
        exact ⟨c, by simp, h, hk⟩
      · simp only [formatLoop, hk, if_true, hm, if_false] at h
        simp at h
        rcases h with h | h
        · exact ⟨c, by simp, h, hk⟩
        · obtain ⟨c', hc', hrc', hkeep'⟩ := ih h
          exact ⟨c', by simp [hc'], hrc', hkeep'⟩
    · simp only [formatLoop, hk] at h
      simp at h
      obtain ⟨c', hc', hrc', hkeep'⟩ := ih h
      exact ⟨c', by simp [hc'], hrc', hkeep'⟩

/-- The formatting loop returns nothing when every candidate is rejected. -/
theorem formatLoop_eq_nil {K : Type} [LinearOrderedField K] {excl req : Option (List String)} :
    ∀ {m : ℕ} {cands : List (Candidate K)},
      (∀ c ∈ cands, keepCandidate excl req c.ingredients = false) →
      formatLoop excl req m cands = [] := by
  intro m cands
  induction cands generalizing m with
  | nil => intro _; simp [formatLoop]
  | cons c rest ih =>
    intro h
    have hc : keepCandidate excl req c.ingredients = false := h c (by simp)
    simp only [formatLoop, hc]
    exact ih fun c' hc' => h c' (by simp [hc'])

/-- Eliminating a successful search into the store's candidate list and the
post-filter. -/
theorem search_ok_elim {K : Type} [LinearOrderedField K] {n : ℕ} {ε : Type}
    {sqrtFn : K → K} {embed : String → Fin n → K}
    {store : RetrievalQuery K n → WhereFilter → ℕ → Except ε (List (Candidate K))}
    {query : String} {excl req : Option (List String)} {pet : Option String} {m : ℕ}
    {results : List (FormattedResult K)}
    (h : search sqrtFn embed store query excl req pet m = Except.ok results) :
    ∃ cands,
      store (retrievalQueryFor sqrtFn embed query excl req)
        (buildWhereFilter (buildConditions pet excl)) (m * 3) = Except.ok cands
      ∧ results = postProcessResults excl req m cands := by
  simp only [search] at h
  cases hs : store (retrievalQueryFor sqrtFn embed query excl req)
      (buildWhereFilter (buildConditions pet excl)) (m * 3) with
  | error e => rw [hs] at h; simp at h
  | ok cands =>
    rw [hs] at h
    simp at h
    exact ⟨cands, rfl, h.symm⟩

/-- A surviving candidate contains none of the active exclusion terms. -/
theorem keep_no_exclusion {req : Option (List String)} {l : List String} {ing t : String}
    (hk : keepCandidate (some l) req ing = true) (ht : t ∈ l) :
    pyIn t ing = false := by
  have hex : exclusionOK (some l) ing = true := by
    have := hk
    simp only [keepCandidate, Bool.and_eq_true] at this
    exact this.1
  have hne : l ≠ [] := List.ne_nil_of_mem ht
  simp only [exclusionOK, optListTruthy, Option.getD_some] at hex
  rw [if_pos (by simp [List.isEmpty_iff, hne])] at hex
  simp only [Bool.not_eq_true', List.any_eq_false] at hex
  simpa using hex t ht

/-! ## Claim theorems -/

/-- C1: Exclusion safety — for every call to search with a non-empty
dietary_exclusions list, no returned result's ingredient text contains any
exclusion term as a case-insensitive substring, whatever candidate list the
vector store returns (including when a violating item is the nearest
neighbor). -/
theorem exclusion_safety {K : Type} [LinearOrderedField K] {n : ℕ} {ε : Type}
    (sqrtFn : K → K) (embed : String → Fin n → K)
    (store : RetrievalQuery K n → WhereFilter → ℕ → Except ε (List (Candidate K)))
    (query : String) (l : List String) (req : Option (List String)) (pet : Option String)
    (m : ℕ) (results : List (FormattedResult K)) (r : FormattedResult K) (t : String)
    (hok : search sqrtFn embed store query (some l) req pet m = Except.ok results)
    (hr : r ∈ results) (ht : t ∈ l) :
    pyIn t r.ingredients = false := by
  obtain ⟨cands, hs, hres⟩ := search_ok_elim hok
  subst hres
  simp only [postProcessResults] at hr
  obtain ⟨c, _, hrc, hkeep⟩ := mem_formatLoop hr
  subst hrc
  exact keep_no_exclusion hkeep ht

/-- C1 witness: with a store whose nearest neighbor is a salmon product, a
salmon-excluding search returns only the beef product, whose ingredients do
not contain salmon. -/
theorem exclusion_safety_witness :
    search id embed0 store0 "dog food" (some ["salmon"]) none none 5 = Except.ok [mkResult cBeef]
    ∧ pyIn "salmon" (mkResult cBeef).ingredients = false :=
  ⟨rfl,
    exclusion_safety id embed0 store0 "dog food" ["salmon"] none none 5
      [mkResult cBeef] (mkResult cBeef) "salmon" rfl (by simp) (by simp)⟩

/-- The requirement half of the post-filter, read off a surviving candidate. -/
theorem keep_requirement {excl : Option (List String)} {lr : List String} {ing : String}
    (hk : keepCandidate excl (some lr) ing = true) (hne : lr ≠ []) :
    ("grain".data ∈ lr.map pyLower → grainTypes.any (fun g => pyIn g ing) = true)
    ∧ ("grain".data ∉ lr.map pyLower → ∀ t ∈ lr, pyIn t ing = true) := by
  have hrq : requirementOK (some lr) ing = true := by
    have := hk
    simp only [keepCandidate, Bool.and_eq_true] at this
    exact this.2
  simp only [requirementOK, optListTruthy, Option.getD_some] at hrq
  rw [if_pos (by simp [List.isEmpty_iff, hne])] at hrq
  constructor
  · intro hg
    rw [if_pos hg] at hrq
    exact hrq
  · intro hg t htl
    rw [if_neg hg] at hrq
    simp only [List.all_eq_true] at hrq
    simpa using hrq t htl

/-- C2 counterexample: with requirements grain and lamb together, the beef
product is returned although its ingredient text does not contain lamb, so
the logical-AND-over-all-terms reading is false when grain is mixed with a
literal term. -/
theorem requirement_satisfaction_counterexample :
    search id embed0 store0 "dog food" none (some ["grain", "lamb"]) none 5
      = Except.ok [mkResult cBeef]
    ∧ "lamb" ∈ (["grain", "lamb"] : List String)
    ∧ pyIn "lamb" (mkResult cBeef).ingredients = false :=
  ⟨rfl, by simp, by decide⟩

/-- C2 (amended): every returned result satisfies the requirement list in the
sense implemented: when "grain" is among the lower-cased requirement terms,
the result contains at least one canonical grain synonym (and the other
requirement terms are not checked); otherwise every requirement term appears
literally as a case-insensitive substring of the ingredient text. -/
theorem requirement_satisfaction_amended {K : Type} [LinearOrderedField K] {n : ℕ} {ε : Type}
    (sqrtFn : K → K) (embed : String → Fin n → K)
    (store : RetrievalQuery K n → WhereFilter → ℕ → Except ε (List (Candidate K)))
    (query : String) (excl : Option (List String)) (lr : List String) (pet : Option String)
    (m : ℕ) (results : List (FormattedResult K)) (r : FormattedResult K)
    (hok : search sqrtFn embed store query excl (some lr) pet m = Except.ok results)
    (hr : r ∈ results) (hne : lr ≠ []) :
    ("grain".data ∈ lr.map pyLower → grainTypes.any (fun g => pyIn g r.ingredients) = true)
    ∧ ("grain".data ∉ lr.map pyLower → ∀ t ∈ lr, pyIn t r.ingredients = true) := by
  obtain ⟨cands, hs, hres⟩ := search_ok_elim hok
  subst hres
  simp only [postProcessResults] at hr
  obtain ⟨c, _, hrc, hkeep⟩ := mem_formatLoop hr
  subst hrc
  exact keep_requirement hkeep hne

/-- C2 witness: a grain-requiring search over the sample store returns the
rice-bearing beef product, which contains a grain synonym. -/
theorem requirement_satisfaction_witness :
    search id embed0 store0 "dog food" none (some ["grain"]) none 5 = Except.ok [mkResult cBeef]
    ∧ grainTypes.any (fun g => pyIn g (mkResult cBeef).ingredients) = true :=
  ⟨rfl,
    (requirement_satisfaction_amended id embed0 store0 "dog food" none ["grain"] none 5
        [mkResult cBeef] (mkResult cBeef) rfl (by simp) (by simp)).1 (by decide)⟩

/-- C3 counterexample: with the term beef both excluded and required, the
search returns nothing, whereas treating the term as excluded only (dropping
it from the requirement list) returns the salmon product — the outcome is not
the exclusion-only outcome. -/
theorem conflict_resolution_counterexample :
    search id embed0 store0 "dog food" (some ["beef"]) (some ["beef"]) none 5 = Except.ok []
    ∧ search id embed0 store0 "dog food" (some ["beef"]) (some []) none 5
        = Except.ok [mkResult cSalmon]
    ∧ ([] : List (FormattedResult ℚ)) ≠ [mkResult cSalmon] :=
  ⟨rfl, rfl, by decide⟩

/-- C3 (amended): when a term appears in both the exclusion and the
requirement list, both post-filters still apply conjunctively; for a
non-grain shared term no candidate can satisfy both, so the search returns
the empty result (a normal value, not an error) — strictly more restrictive
than treating the term as excluded only. -/
theorem conflict_exclusion_conjunctive {K : Type} [LinearOrderedField K] {n : ℕ} {ε : Type}
    (sqrtFn : K → K) (embed : String → Fin n → K)
    (store : RetrievalQuery K n → WhereFilter → ℕ → Except ε (List (Candidate K)))
    (query : String) (le lr : List String) (pet : Option String) (m : ℕ)
    (results : List (FormattedResult K)) (t : String)
    (hte : t ∈ le) (htr : t ∈ lr) (hng : "grain".data ∉ lr.map pyLower)
    (hok : search sqrtFn embed store query (some le) (some lr) pet m = Except.ok results) :
    results = [] := by
  obtain ⟨cands, hs, hres⟩ := search_ok_elim hok
  subst hres
  simp only [postProcessResults]
  apply formatLoop_eq_nil
  intro c _
  by_cases hp : pyIn t c.ingredients = true
  · have hex : exclusionOK (some le) c.ingredients = false := by
      simp only [exclusionOK, optListTruthy, Option.getD_some]
      rw [if_pos (by simp [List.isEmpty_iff, List.ne_nil_of_mem hte])]
      have hany : (le.any fun u => pyIn u c.ingredients) = true :=
        List.any_eq_true.mpr ⟨t, hte, by simp [hp]⟩
      simp [hany]
    simp [keepCandidate, hex]
  · have hp' : pyIn t c.ingredients = false := by
      cases hval : pyIn t c.ingredients
      · rfl
      · exact absurd hval hp
    have hrq : requirementOK (some lr) c.ingredients = false := by
      simp only [requirementOK, optListTruthy, Option.getD_some]
      rw [if_pos (by simp [List.isEmpty_iff, List.ne_nil_of_mem htr])]
      rw [if_neg hng]
      cases hall : lr.all fun u => pyIn u c.ingredients
      · rfl
      · exfalso
        have := (List.all_eq_true.mp hall) t htr
        simp [hp'] at this
    simp [keepCandidate, hrq]

/-- C3 witness: on the sample store, the post-filter with beef both excluded
and required keeps nothing. -/
theorem conflict_exclusion_conjunctive_witness :
    postProcessResults (some ["beef"]) (some ["beef"]) 5 [cSalmon, cBeef]
      = ([] : List (FormattedResult ℚ)) :=
  conflict_exclusion_conjunctive id embed0 store0 "dog food" ["beef"] ["beef"] none 5
    (postProcessResults (some ["beef"]) (some ["beef"]) 5 [cSalmon, cBeef]) "beef"
    (by simp) (by simp) (by decide) rfl

/-! ## Helper lemmas about the conversation memory -/

/-- add_user_message never touches last_results or the last-shown brands. -/
theorem add_user_message_keeps (mem : ConversationMemory) (msg : String) (it : Option Intent) :
    (add_user_message mem msg it).last_results = mem.last_results
    ∧ (add_user_message mem msg it).context.last_brands_shown
        = mem.context.last_brands_shown := by
  cases it <;> simp only [add_user_message] <;> (repeat' split) <;> simp

/-- Accumulating only appends: the previous exclusion list is a prefix. -/
theorem accumulateExclusions_append (newTerms : List String) :
    ∀ existing, ∃ added, accumulateExclusions existing newTerms = existing ++ added := by
  induction newTerms with
  | nil => intro existing; exact ⟨[], by simp [accumulateExclusions]⟩
  | cons u us ih =>
    intro existing
    have hstep : accumulateExclusions existing (u :: us)
        = accumulateExclusions (if existing.contains u then existing else existing ++ [u]) us :=
      rfl
    by_cases hc : existing.contains u = true
    · obtain ⟨a, ha⟩ := ih existing
      exact ⟨a, by rw [hstep, if_pos hc, ha]⟩
    · obtain ⟨a, ha⟩ := ih (existing ++ [u])
      refine ⟨[u] ++ a, ?_⟩
      rw [hstep, if_neg hc, ha, List.append_assoc]

/-- add_user_message only ever appends to the accumulated exclusion set. -/
theorem add_user_message_exclusions (mem : ConversationMemory) (msg : String)
    (it : Option Intent) :
    ∃ added, (add_user_message mem msg it).context.current_exclusions
      = mem.context.current_exclusions ++ added := by
  cases it with
  | none =>
    refine ⟨[], ?_⟩
    simp only [add_user_message]
    split <;> simp
  | some i =>
    by_cases hx : optListTruthy i.dietary_exclusions = true
    · obtain ⟨a, ha⟩ :=
        accumulateExclusions_append (i.dietary_exclusions.getD []) mem.context.current_exclusions
      refine ⟨a, ?_⟩
      simp only [add_user_message, hx]
      (repeat' split) <;> simp_all [ha]
    · refine ⟨[], ?_⟩
      simp only [add_user_message, hx]
      (repeat' split) <;> simp_all

/-- add_bot_message never touches the accumulated exclusion set. -/
theorem add_bot_message_keeps_exclusions (mem : ConversationMemory) (msg : String)
    (rs : List (FormattedResult ℚ)) :
    (add_bot_message mem msg rs).context.current_exclusions
      = mem.context.current_exclusions := by
  simp only [add_bot_message]
  split <;> simp

/-- With an empty (falsy) result list, add_bot_message only appends the
assistant message. -/
theorem add_bot_message_empty (mem : ConversationMemory) (msg : String) :
    add_bot_message mem msg []
      = { mem with messages := mem.messages ++ [⟨"assistant", msg, none⟩] } := by
  simp [add_bot_message]

/-- Eliminating a successful chat turn into its components. -/
theorem chat_ok_elim {ε : Type} {searchFn : SearchArgs → Except ε (List (FormattedResult ℚ))}
    {nlu : String → Intent} {saved : List String} {mem : ConversationMemory} {msg : String}
    {it : Intent} {rs : List (FormattedResult ℚ)}
    (h : (chat searchFn nlu saved mem msg).1 = Except.ok (it, rs)) :
    it = mergeSavedExclusions saved (resolve_reference_query mem msg (nlu msg))
    ∧ searchFn (searchCallArgs it msg) = Except.ok rs
    ∧ (chat searchFn nlu saved mem msg).2
      = add_bot_message (add_user_message mem msg (some it))
          ("Found " ++ toString rs.length ++ " products") rs := by
  simp only [chat] at h ⊢
  cases hs : searchFn
      (searchCallArgs (mergeSavedExclusions saved (resolve_reference_query mem msg (nlu msg))) msg) with
  | error e => rw [hs] at h; simp at h
  | ok results =>
    rw [hs] at h
    simp at h
    obtain ⟨h1, h2⟩ := h
    subst h1
    subst h2
    rw [hs]
    exact ⟨rfl, rfl, rfl⟩

/-- C6: Context mutation atomicity — when the search step of a chat turn
fails, the session memory returned by the turn is exactly the memory it
started with: no message, exclusion, pet, price-range or brand update
happens. -/
theorem context_atomicity {ε : Type} (searchFn : SearchArgs → Except ε (List (FormattedResult ℚ)))
    (nlu : String → Intent) (saved : List String) (mem : ConversationMemory) (msg : String)
    (e : ε) (h : (chat searchFn nlu saved mem msg).1 = Except.error e) :
    (chat searchFn nlu saved mem msg).2 = mem := by
  simp only [chat] at h ⊢
  cases hs : searchFn
      (searchCallArgs (mergeSavedExclusions saved (resolve_reference_query mem msg (nlu msg))) msg) with
  | error e' => rfl
  | ok results => rw [hs] at h; simp at h

/-- C6 witness: a failing search engine leaves the sample session untouched. -/
theorem context_atomicity_witness :
    (chat sFnErr nlu0 [] memW "dog food").1 = Except.error ()
    ∧ (chat sFnErr nlu0 [] memW "dog food").2 = memW :=
  ⟨rfl, context_atomicity sFnErr nlu0 [] memW "dog food" () rfl⟩

/-- C4 counterexample: a turn whose search succeeds with zero results leaves
last_brands_shown = ["BrandA"] and last_results = [r40] from the previous
turn, instead of replacing them with empty values as the claim states
(the truthiness guard in add_bot_message skips the update). -/
theorem empty_result_context_counterexample :
    (chat sFnEmpty nlu0 [] memW "dog food").1
      = Except.ok (mergeSavedExclusions [] (resolve_reference_query memW "dog food" emptyIntent),
          ([] : List (FormattedResult ℚ)))
    ∧ (chat sFnEmpty nlu0 [] memW "dog food").2.context.last_brands_shown = ["BrandA"]
    ∧ (chat sFnEmpty nlu0 [] memW "dog food").2.last_results = [r40]
    ∧ (["BrandA"] : List String) ≠ []
    ∧ ([r40] : List (FormattedResult ℚ)) ≠ [] :=
  ⟨rfl, rfl, rfl, by decide, by decide⟩

/-- C4 (amended): a turn with zero surviving candidates is a normal outcome
(the turn returns an empty ordered result list, not an error) and the bot
message for the turn is still recorded, but last_results and the last-shown
brand set are left at their previous values rather than being emptied. -/
theorem empty_result_turn {ε : Type} (searchFn : SearchArgs → Except ε (List (FormattedResult ℚ)))
    (nlu : String → Intent) (saved : List String) (mem : ConversationMemory) (msg : String)
    (it : Intent)
    (h : (chat searchFn nlu saved mem msg).1
      = Except.ok (it, ([] : List (FormattedResult ℚ)))) :
    (chat searchFn nlu saved mem msg).2.last_results = mem.last_results
    ∧ (chat searchFn nlu saved mem msg).2.context.last_brands_shown
        = mem.context.last_brands_shown
    ∧ (chat searchFn nlu saved mem msg).2.messages.getLast?
        = some ⟨"assistant", "Found 0 products", none⟩ := by
  obtain ⟨hit, hsf, h2⟩ := chat_ok_elim h
  rw [h2, add_bot_message_empty]
  refine ⟨?_, ?_, ?_⟩
  · simpa using (add_user_message_keeps mem msg (some it)).1
  · simpa using (add_user_message_keeps mem msg (some it)).2
  · rw [List.getLast?_concat]
    rfl

/-- C4 witness: a concrete empty-result turn on the sample session keeps the
previous last_results. -/
theorem empty_result_turn_witness :
    (chat sFnEmpty nlu0 [] memW "kitten chow").1
      = Except.ok (mergeSavedExclusions [] (resolve_reference_query memW "kitten chow" emptyIntent),
          ([] : List (FormattedResult ℚ)))
    ∧ (chat sFnEmpty nlu0 [] memW "kitten chow").2.last_results = memW.last_results :=
  ⟨rfl,
    (empty_result_turn sFnEmpty nlu0 [] memW "kitten chow"
      (mergeSavedExclusions [] (resolve_reference_query memW "kitten chow" emptyIntent)) rfl).1⟩

/-- The later resolver steps never touch the price fields. -/
theorem resolver_steps_keep_price (mem : ConversationMemory) (q : String) (r : Intent) :
    ((step_inherit_pet mem r).price_max = r.price_max
      ∧ (step_inherit_pet mem r).price_min = r.price_min)
    ∧ ((step_accumulate mem q r).price_max = r.price_max
      ∧ (step_accumulate mem q r).price_min = r.price_min)
    ∧ ((step_brand_diff mem q r).price_max = r.price_max
      ∧ (step_brand_diff mem q r).price_min = r.price_min) := by
  refine ⟨?_, ?_, ?_⟩ <;> constructor <;>
    · simp only [step_inherit_pet, step_accumulate, step_brand_diff]
      split <;> rfl

/-- C5 counterexample: with a previous result set of mean price 40, a
follow-up containing both "cheaper" and "premium" resolves price_max to 32
but leaves price_min unset — the elif makes the cheaper cue shadow the
premium cue, so "text containing premium sets price_min to 1.2 times the
mean" fails as stated. -/
theorem comparative_price_counterexample :
    pyIn "premium" "cheaper premium" = true
    ∧ memW.last_results ≠ []
    ∧ avgPrice memW.last_results = 40
    ∧ (resolve_reference_query memW "cheaper premium" emptyIntent).price_max = some 32
    ∧ (resolve_reference_query memW "cheaper premium" emptyIntent).price_min = none := by
  have h40 : avgPrice memW.last_results = 40 := by
    simp [avgPrice, memW, r40]
  have hstep : step_comparative_price memW "cheaper premium" emptyIntent
      = { emptyIntent with price_max := some (avgPrice memW.last_results * (8 / 10)) } := by
    simp only [step_comparative_price]
    rw [if_pos (by decide), if_pos (by decide)]
  have hmax : (resolve_reference_query memW "cheaper premium" emptyIntent).price_max
      = some (avgPrice memW.last_results * (8 / 10)) := by
    simp only [resolve_reference_query]
    rw [(resolver_steps_keep_price memW "cheaper premium" _).2.2.1,
      (resolver_steps_keep_price memW "cheaper premium" _).2.1.1,
      (resolver_steps_keep_price memW "cheaper premium" _).1.1, hstep]
  have hmin : (resolve_reference_query memW "cheaper premium" emptyIntent).price_min = none := by
    simp only [resolve_reference_query]
    rw [(resolver_steps_keep_price memW "cheaper premium" _).2.2.2,
      (resolver_steps_keep_price memW "cheaper premium" _).2.1.2,
      (resolver_steps_keep_price memW "cheaper premium" _).1.2, hstep]
    rfl
  refine ⟨by decide, by decide, h40, ?_, hmin⟩
  rw [hmax, h40]
  norm_num

/-- C5 (amended): with a non-empty previous result set, a query containing
"cheaper" or "less expensive" resolves price_max to exactly 0.8 times the
mean price of the previous results (overriding any price_max in the intent);
a query containing "more expensive" or "premium" and not containing a
cheaper cue resolves price_min to exactly 1.2 times that mean (overriding
any price_min). -/
theorem comparative_price_resolution (mem : ConversationMemory) (q : String) (i : Intent)
    (hne : mem.last_results ≠ []) :
    ((pyIn "cheaper" q || pyIn "less expensive" q) = true →
      (resolve_reference_query mem q i).price_max
        = some (avgPrice mem.last_results * (8 / 10)))
    ∧ ((pyIn "cheaper" q || pyIn "less expensive" q) = false →
        (pyIn "more expensive" q || pyIn "premium" q) = true →
      (resolve_reference_query mem q i).price_min
        = some (avgPrice mem.last_results * (12 / 10))) := by
  have hkeep := fun r => resolver_steps_keep_price mem q r
  have hnemp : (!mem.last_results.isEmpty) = true := by
    simp [List.isEmpty_iff, hne]
  constructor
  · intro hc
    have h1 : (step_comparative_price mem q i).price_max
        = some (avgPrice mem.last_results * (8 / 10)) := by
      simp only [step_comparative_price]
      rw [if_pos hc, if_pos hnemp]
    calc (resolve_reference_query mem q i).price_max
        = (step_comparative_price mem q i).price_max := by
          simp only [resolve_reference_query]
          rw [(hkeep _).2.2.1, (hkeep _).2.1.1, (hkeep _).1.1]
      _ = some (avgPrice mem.last_results * (8 / 10)) := h1
  · intro hc hm
    have h1 : (step_comparative_price mem q i).price_min
        = some (avgPrice mem.last_results * (12 / 10)) := by
      simp only [step_comparative_price]
      rw [if_neg (by simp [hc]), if_pos hm, if_pos hnemp]
    calc (resolve_reference_query mem q i).price_min
        = (step_comparative_price mem q i).price_min := by
          simp only [resolve_reference_query]
          rw [(hkeep _).2.2.2, (hkeep _).2.1.2, (hkeep _).1.2]
      _ = some (avgPrice mem.last_results * (12 / 10)) := h1

/-- C5 witness: mean price 40 resolves "cheaper" to price_max 32 (the
end-to-end scenario of the spec) and a pure "premium" follow-up to
price_min 48. -/
theorem comparative_price_resolution_witness :
    (resolve_reference_query memW "show me cheaper options" emptyIntent).price_max = some 32
    ∧ (resolve_reference_query memW "strictly premium ones" emptyIntent).price_min = some 48 := by
  have h40 : avgPrice memW.last_results = 40 := by
    simp [avgPrice, memW, r40]
  constructor
  · refine ((comparative_price_resolution memW "show me cheaper options" emptyIntent
      (by decide)).1 (by decide)).trans ?_
    rw [h40]
    norm_num
  · refine ((comparative_price_resolution memW "strictly premium ones" emptyIntent
      (by decide)).2 (by decide) (by decide)).trans ?_
    rw [h40]
    norm_num

/-- Folding pointwise subtraction of weighted vectors equals subtracting the
weighted pointwise sum. -/
theorem foldl_sub_eq {K : Type} [LinearOrderedField K] {n : ℕ} (e : String → Fin n → K)
    (α : K) :
    ∀ (l : List String) (base : Fin n → K),
      l.foldl (fun acc t => fun i => acc i - α * e t i) base
        = fun i => base i - α * ((l.map fun t => e t i).sum) := by
  intro l
  induction l with
  | nil => intro base; funext i; simp
  | cons t ts ih =>
    intro base
    rw [List.foldl_cons, ih]
    funext i
    simp only [List.map_cons, List.sum_cons]
    ring

/-- Folding pointwise addition of weighted vectors equals adding the
weighted pointwise sum. -/
theorem foldl_add_eq {K : Type} [LinearOrderedField K] {n : ℕ} (e : String → Fin n → K)
    (α : K) :
    ∀ (l : List String) (base : Fin n → K),
      l.foldl (fun acc t => fun i => acc i + α * e t i) base
        = fun i => base i + α * ((l.map fun t => e t i).sum) := by
  intro l
  induction l with
  | nil => intro base; funext i; simp
  | cons t ts ih =>
    intro base
    rw [List.foldl_cons, ih]
    funext i
    simp only [List.map_cons, List.sum_cons]
    ring

/-- Branching on positivity of a nonnegative real is branching on it being
zero, with the arms swapped. -/
theorem ite_pos_of_nonneg {γ : Type} {S : ℝ} (hS : 0 ≤ S) (A B : γ) :
    (if 0 < S then A else B) = (if S = 0 then B else A) := by
  by_cases h : S = 0
  · rw [if_pos h, if_neg (by rw [h]; exact lt_irrefl 0)]
  · rw [if_neg h, if_pos (lt_of_le_of_ne hS (Ne.symm h))]

/-- C7: Contrastive composition — the composed query vector is the base-query
embedding minus alpha times each exclusion embedding plus alpha times each
requirement embedding (a "grain" requirement being replaced by the canonical
grain phrase before embedding), L2-normalized unless its norm is zero, in
which case it is returned unchanged; and the composed vector is used for
retrieval exactly when an exclusion or requirement term is present, raw query
text otherwise. -/
theorem contrastive_composition (n : ℕ) (embed : String → Fin n → ℝ) (alpha : ℝ)
    (query : String) (excl req : Option (List String)) :
    (create_contrastive_embedding Real.sqrt embed query excl req alpha
      = (let composed : Fin n → ℝ := fun i =>
            embed query i
              - alpha * (((truthyList excl).map fun t => embed t i).sum)
              + alpha * (((truthyList req).map fun t => embed (boost_text t) i).sum);
         if Real.sqrt (normSq composed) = 0 then composed
         else fun i => composed i / Real.sqrt (normSq composed)))
    ∧ retrievalQueryFor Real.sqrt embed query excl req
      = (if optListTruthy excl || optListTruthy req then
          RetrievalQuery.byVector
            (create_contrastive_embedding Real.sqrt embed query excl req defaultAlpha)
        else RetrievalQuery.byText query) := by
  constructor
  · have hbody : (truthyList req).foldl
        (fun acc t => fun i => acc i + alpha * embed (boost_text t) i)
        ((truthyList excl).foldl (fun acc t => fun i => acc i - alpha * embed t i) (embed query))
      = fun i => embed query i
          - alpha * (((truthyList excl).map fun t => embed t i).sum)
          + alpha * (((truthyList req).map fun t => embed (boost_text t) i).sum) := by
      rw [foldl_add_eq, foldl_sub_eq]
    simp only [create_contrastive_embedding, hbody]
    exact ite_pos_of_nonneg (Real.sqrt_nonneg _) _ _
  · rfl

/-- C8: Filter Builder predicate shape — zero translated conditions yield no
metadata predicate, one condition is used verbatim with no AND wrapper, two
or more are wrapped in a logical AND; an exclusion term contributes an
index-level condition exactly when it is one of the recognized terms
salmon/chicken/grain/grains (case-insensitively); an unrecognized exclusion
term contributes no condition, is never rejected (the search still succeeds
whenever the store does), and is enforced only by the post-filter. -/
theorem filter_builder_predicate_shape :
    (buildWhereFilter [] = WhereFilter.noFilter)
    ∧ (∀ c, buildWhereFilter [c] = WhereFilter.single c)
    ∧ (∀ cs : List MetaCond, 2 ≤ cs.length → buildWhereFilter cs = WhereFilter.andAll cs)
    ∧ (∀ t : String, (exclusionCondition t).isSome = true ↔
        pyLower t ∈ ["salmon".data, "chicken".data, "grain".data, "grains".data])
    ∧ (∀ (pet : Option String) (l₁ l₂ : List String) (t : String),
        exclusionCondition t = none →
        buildConditions pet (some (l₁ ++ t :: l₂)) = buildConditions pet (some (l₁ ++ l₂)))
    ∧ (∀ (K : Type) [LinearOrderedField K], ∀ (n : ℕ) (ε : Type) (sqrtFn : K → K)
        (embed : String → Fin n → K)
        (store : RetrievalQuery K n → WhereFilter → ℕ → Except ε (List (Candidate K)))
        (query : String) (excl req : Option (List String)) (pet : Option String) (m : ℕ)
        (cands : List (Candidate K)),
        store (retrievalQueryFor sqrtFn embed query excl req)
            (buildWhereFilter (buildConditions pet excl)) (m * 3) = Except.ok cands →
        search sqrtFn embed store query excl req pet m
          = Except.ok (postProcessResults excl req m cands)) := by
  refine ⟨rfl, fun c => rfl, ?_, ?_, ?_, ?_⟩
  · intro cs h
    cases cs with
    | nil => simp at h
    | cons a tail =>
      cases tail with
      | nil => simp at h
      | cons b rest => rfl
  · intro t
    simp only [exclusionCondition]
    split_ifs with h1 h2 h3 <;> simp_all
  · intro pet l₁ l₂ t ht
    have hfm : (l₁ ++ t :: l₂).filterMap exclusionCondition
        = (l₁ ++ l₂).filterMap exclusionCondition := by
      simp [List.filterMap_append, List.filterMap_cons, ht]
    by_cases hemp : (l₁ ++ l₂) = []
    · rcases List.append_eq_nil.mp hemp with ⟨h1, h2⟩
      subst h1
      subst h2
      simp [buildConditions, optListTruthy, List.filterMap_cons, ht]
    · simp only [buildConditions]
      have h₁ : optListTruthy (some (l₁ ++ t :: l₂)) = true := by
        simp [optListTruthy, List.isEmpty_iff]
      have h₂ : optListTruthy (some (l₁ ++ l₂)) = true := by
        simp [optListTruthy, List.isEmpty_iff, hemp]
      rw [if_pos h₁, if_pos h₂]
      simp [hfm]
  · intro K instK n ε sqrtFn embed store query excl req pet m cands h
    simp only [search]
    rw [h]

/-- C8 witness: two conditions are wrapped in an AND; the unrecognized term
tofu contributes no condition; a search excluding tofu succeeds whenever the
store does, tofu being enforced by the post-filter alone. -/
theorem filter_builder_predicate_shape_witness :
    buildWhereFilter [MetaCond.eqStr "target_pet" "dog", MetaCond.eqBool "has_salmon" false]
      = WhereFilter.andAll
          [MetaCond.eqStr "target_pet" "dog", MetaCond.eqBool "has_salmon" false]
    ∧ buildConditions (some "dog") (some ["tofu"]) = buildConditions (some "dog") (some [])
    ∧ search id embed0 store0 "dog food" (some ["tofu"]) none none 5
        = Except.ok (postProcessResults (some ["tofu"]) none 5 [cSalmon, cBeef]) := by
  refine ⟨filter_builder_predicate_shape.2.2.1 _ (by decide), ?_, ?_⟩
  · exact filter_builder_predicate_shape.2.2.2.2.1 (some "dog") [] [] "tofu" (by decide)
  · exact filter_builder_predicate_shape.2.2.2.2.2 ℚ 1 Unit id embed0 store0 "dog food"
      (some ["tofu"]) none none 5 [cSalmon, cBeef] rfl

/-- One chat turn can only extend the accumulated exclusion set. -/
theorem chat_exclusions_grow {ε : Type} (searchFn : SearchArgs → Except ε (List (FormattedResult ℚ)))
    (nlu : String → Intent) (saved : List String) (mem : ConversationMemory) (msg : String) :
    ∃ added, (chat searchFn nlu saved mem msg).2.context.current_exclusions
      = mem.context.current_exclusions ++ added := by
  simp only [chat]
  cases hs : searchFn
      (searchCallArgs (mergeSavedExclusions saved (resolve_reference_query mem msg (nlu msg))) msg) with
  | error e => exact ⟨[], by simp⟩
  | ok rs =>
    obtain ⟨a, ha⟩ := add_user_message_exclusions mem msg
      (some (mergeSavedExclusions saved (resolve_reference_query mem msg (nlu msg))))
    exact ⟨a, by rw [add_bot_message_keeps_exclusions, ha]⟩

/-- C9: Accumulation monotonicity — across any sequence of chat turns in one
session, the accumulated exclusion set only ever gains a (possibly empty)
suffix: every previously accumulated term remains present and the set never
shrinks, whatever each turn's intent contains. -/
theorem accumulation_monotonic {ε : Type}
    (searchFn : SearchArgs → Except ε (List (FormattedResult ℚ)))
    (nlu : String → Intent) (saved : List String) (msgs : List String)
    (mem : ConversationMemory) :
    ∃ added, (msgs.foldl (fun m msg => (chat searchFn nlu saved m msg).2) mem).context.current_exclusions
      = mem.context.current_exclusions ++ added := by
  induction msgs generalizing mem with
  | nil => exact ⟨[], by simp⟩
  | cons msg rest ih =>
    obtain ⟨a₁, h₁⟩ := chat_exclusions_grow searchFn nlu saved mem msg
    obtain ⟨a₂, h₂⟩ := ih ((chat searchFn nlu saved mem msg).2)
    refine ⟨a₁ ++ a₂, ?_⟩
    rw [List.foldl_cons, h₂, h₁, List.append_assoc]

/-- C10: Price bounds never affect search results — the search call arguments
assembled by a chat turn contain no price field, so two resolved intents that
agree on everything except price_min/price_max produce identical search
arguments and hence an identical ranked result list from the engine. -/
theorem search_ignores_price_fields (i₁ i₂ : Intent) (msg : String)
    (hq : i₁.query = i₂.query) (hp : i₁.target_pet = i₂.target_pet)
    (he : i₁.dietary_exclusions = i₂.dietary_exclusions)
    (hr : i₁.dietary_requirements = i₂.dietary_requirements)
    (hl : i₁.life_stage = i₂.life_stage) (hsz : i₁.size_category = i₂.size_category)
    (hb : i₁.brand = i₂.brand) (hx : i₁.exclude_brands = i₂.exclude_brands) :
    searchCallArgs i₁ msg = searchCallArgs i₂ msg
    ∧ (∀ (K : Type) [LinearOrderedField K], ∀ (n : ℕ) (ε : Type) (sqrtFn : K → K)
        (embed : String → Fin n → K)
        (store : RetrievalQuery K n → WhereFilter → ℕ → Except ε (List (Candidate K))),
        runSearchEngine sqrtFn embed store (searchCallArgs i₁ msg)
          = runSearchEngine sqrtFn embed store (searchCallArgs i₂ msg)) := by
  have hargs : searchCallArgs i₁ msg = searchCallArgs i₂ msg := by
    simp [searchCallArgs, hq, hp, he, hr]
  exact ⟨hargs, fun K instK n ε sqrtFn embed store => by rw [hargs]⟩

/-- C10 witness: two intents differing only in their price fields yield the
same search arguments. -/
theorem search_ignores_price_fields_witness :
    searchCallArgs { emptyIntent with price_min := some 1, price_max := some 100 } "dog food"
      = searchCallArgs { emptyIntent with price_max := some 5 } "dog food" :=
  (search_ignores_price_fields
    { emptyIntent with price_min := some 1, price_max := some 100 }
    { emptyIntent with price_max := some 5 } "dog food"
    rfl rfl rfl rfl rfl rfl rfl rfl).1

end SearchBot
